import Mathlib

/-!
Verification development for the connectsphere backend (an Express +
Mongoose social-network server).  The repository holds two near-duplicate
revisions of the same server: `src/server.js` (the named, current revision)
and `src/unnamed/part_002` (an earlier revision).  Definitions suffixed
`V2` embed the `part_002` revision; unsuffixed definitions embed
`src/server.js`.

Modelling conventions:
  - Mongo ObjectIds are modelled as `Nat`; `Date.now` timestamps as `Nat`.
  - A Mongoose document save is modelled as replacing the stored record
    that has the saved document id (for the one place where two in-memory
    documents of the same record are saved in sequence - the self-follow
    path of the part_002 revision - the two saves are modelled as the two
    field-path updates Mongoose would persist, applied in order).
  - `Post.likes` is `List (Option Nat)`: Mongo permits `null` entries in
    the stored array, which is exactly what the `pre-save` hook filters.
  - Live socket.io delivery is modelled by an `Effect` trace; the set of
    connected user rooms is the `sessions` parameter, and whether a
    `liveEmit` actually reached a session is recorded in the trace only.
  - The part_002 revision loads its Notification model from
    src/models/Notification.js, whose schema requires a `fromUsername`
    field that none of the part_002 routes ever sets.  Every
    `notification.save()` in that revision therefore rejects with a
    validation error, the route's catch returns 500, no notification is
    persisted, and the live emit (which follows the save) is never
    reached.  The writes made before that save (the follow edge saves,
    the post save with the appended comment or like) have already been
    persisted.  The V2 handlers below model this failing path.
-/

/-- A stored User document (schema of src/server.js lines 57-64, with the
`bio` field of the src/unnamed/part_000 revision of the schema). -/
structure UserR where
  id : Nat
  username : String
  name : String
  password : String
  profilePic : String
  bio : String
  followers : List Nat
  following : List Nat
deriving DecidableEq, Repr

/-- A comment embedded in a Post (src/server.js lines 73-80). -/
structure CommentR where
  userId : Nat
  username : String
  content : String
  createdAt : Nat
deriving DecidableEq, Repr

/-- A stored Post document (src/server.js lines 67-83).  `likes` entries are
`Option Nat` because the stored array can contain nulls, which the pre-save
hook strips.  `visibility` is the raw string; the schema enum restricts it
to public or private at save time. -/
structure PostR where
  id : Nat
  content : String
  userId : Nat
  username : String
  photos : List String
  likes : List (Option Nat)
  comments : List CommentR
  visibility : String
  createdAt : Nat
deriving DecidableEq, Repr

/-- Kind of a stored Notification (src/server.js line 99). -/
inductive NotifType where
  | like
  | comment
  | follow
deriving DecidableEq, Repr

/-- A stored Notification document (src/server.js lines 96-102). -/
structure NotificationR where
  userId : Nat
  fromUserId : Nat
  ntype : NotifType
  postId : Option Nat
  createdAt : Nat
deriving DecidableEq, Repr

/-- The document store: the three collections the claims touch. -/
structure DB where
  users : List UserR
  posts : List PostR
  notifications : List NotificationR
deriving DecidableEq, Repr

/-- Observable side effects of a request handler, in program order.
`liveEmit room delivered` records a socket.io room emit; `delivered` is
whether the target room had a connected session (the handler itself never
inspects it). -/
inductive Effect where
  | savedUser (uid : Nat)
  | savedPost (pid : Nat)
  | savedNotification (n : NotificationR)
  | liveEmit (room : Nat) (delivered : Bool)
deriving DecidableEq, Repr

/-- The JSON serialization of a post as the routes return it: `userId`
populated with the author projection (username, profilePic), and `likes`
null-filtered and stringified (modelled as the list of ids). -/
structure PostOut where
  id : Nat
  content : String
  userId : Nat
  author : Option (String × String)
  username : String
  photos : List String
  likes : List Nat
  comments : List CommentR
  visibility : String
  createdAt : Nat
deriving DecidableEq, Repr

/-- Result of a request handler: HTTP status, post-state of the store, the
side-effect trace, and the post included in the response body (if any). -/
structure HRes where
  status : Nat
  db : DB
  trace : List Effect
  body : Option PostOut
deriving DecidableEq, Repr

/-- `User.findById` (lookup by id in the users collection). -/
def findUser (db : DB) (uid : Nat) : Option UserR :=
  db.users.find? (fun u => u.id == uid)

/-- `Post.findById` (lookup by id in the posts collection). -/
def findPost (db : DB) (pid : Nat) : Option PostR :=
  db.posts.find? (fun p => p.id == pid)

/-- Persisting one modified field path of a user document: every stored
user with the given id gets the update applied. -/
def updUser (db : DB) (uid : Nat) (f : UserR → UserR) : DB :=
  { db with users := db.users.map (fun u => if u.id = uid then f u else u) }

/-- The PostSchema pre-save hook (src/server.js lines 86-92): strips null
entries from `likes` before the document is written. -/
def presave (p : PostR) : PostR :=
  { p with likes := p.likes.filter (fun l => l.isSome) }

/-- `post.save()`: runs the pre-save hook and replaces the stored post
that has the saved document id. -/
def savePostDB (db : DB) (p : PostR) : DB :=
  { db with posts := db.posts.map (fun q => if q.id = p.id then presave p else q) }

/-- `notification.save()`: inserts a new Notification document. -/
def addNotif (db : DB) (n : NotificationR) : DB :=
  { db with notifications := db.notifications ++ [n] }

/-- Projection of a post to its response JSON (see `PostOut`). -/
def toOut (db : DB) (p : PostR) : PostOut :=
  { id := p.id
    content := p.content
    userId := p.userId
    author := (findUser db p.userId).map (fun a => (a.username, a.profilePic))
    username := p.username
    photos := p.photos
    likes := p.likes.filterMap id
    comments := p.comments
    visibility := p.visibility
    createdAt := p.createdAt }

/-- The following-array push of the follow routes
(user.following.push(targetId)). -/
def pushFollowing (targetId : Nat) (u : UserR) : UserR :=
  { u with following := u.following ++ [targetId] }

/-- The followers-array push of the follow routes
(userToFollow.followers.push(actorId)). -/
def pushFollowers (actorId : Nat) (u : UserR) : UserR :=
  { u with followers := u.followers ++ [actorId] }

/-- POST /api/follow/:userId of src/server.js (lines 297-335).  `actorId` is
the authenticated user, `targetId` the route parameter, `now` the server
clock, `sessions` the set of user rooms with a connected socket. -/
def follow (db : DB) (actorId targetId now : Nat) (sessions : List Nat) : HRes :=
  match findUser db actorId, findUser db targetId with
  | some user, some userToFollow =>
    if user.id = targetId then
      { status := 400, db := db, trace := [], body := none }
    else if user.following.contains targetId then
      { status := 200, db := db, trace := [], body := none }
    else
      let db1 := updUser db user.id (pushFollowing targetId)
      let db2 := updUser db1 userToFollow.id (pushFollowers user.id)
      let n : NotificationR :=
        { userId := userToFollow.id, fromUserId := user.id, ntype := .follow
          postId := none, createdAt := now }
      { status := 200
        db := addNotif db2 n
        trace := [.savedUser user.id, .savedUser userToFollow.id,
                  .savedNotification n,
                  .liveEmit userToFollow.id (sessions.contains userToFollow.id)]
        body := none }
  | _, _ => { status := 404, db := db, trace := [], body := none }

/-- POST /api/follow/:id of the src/unnamed/part_002 revision (lines
224-253).  Unlike src/server.js it has no self-follow check; its two edge
saves are modelled as the two field-path updates Mongoose persists.  The
notification save that follows them always throws (the model requires
`fromUsername`, which the route never sets), so the mutating branch
persists the edge writes, never persists a notification, never reaches
the live emit, and falls into the catch with status 500.  The `now` and
`sessions` request context is unused because the handler fails before the
notification timestamp or the rooms are consulted. -/
def followV2 (db : DB) (actorId targetId _now : Nat) (_sessions : List Nat) : HRes :=
  match findUser db targetId, findUser db actorId with
  | some userToFollow, some currentUser =>
    if currentUser.following.contains targetId then
      { status := 200, db := db, trace := [], body := none }
    else
      let db1 := updUser db currentUser.id (pushFollowing targetId)
      let db2 := updUser db1 userToFollow.id (pushFollowers actorId)
      { status := 500
        db := db2
        trace := [.savedUser currentUser.id, .savedUser userToFollow.id]
        body := none }
  | _, _ => { status := 404, db := db, trace := [], body := none }

/-- The isFollowing read used to annotate profile responses
(src/server.js line 222): `currentUser.following.includes(user.id)`. -/
def isFollowing (db : DB) (actorId targetId : Nat) : Bool :=
  match findUser db actorId with
  | some currentUser => currentUser.following.contains targetId
  | none => false

/-- The feed match predicate of GET /api/feed (src/server.js lines
378-383): author in following plus self with public visibility, or any
post authored by self. -/
def feedMatch (user : UserR) (p : PostR) : Bool :=
  ((user.following ++ [user.id]).contains p.userId && p.visibility == "public")
    || p.userId == user.id

/-- Order used by the feed: newest (largest createdAt) first. -/
def newerFirst (a b : PostR) : Prop := b.createdAt ≤ a.createdAt

instance : DecidableRel newerFirst := fun a b => Nat.decLe b.createdAt a.createdAt

instance : IsTotal PostR newerFirst :=
  ⟨fun a b => Nat.le_total b.createdAt a.createdAt⟩

instance : IsTrans PostR newerFirst :=
  ⟨fun _ _ _ h1 h2 => Nat.le_trans h2 h1⟩

/-- GET /api/feed of src/server.js (lines 365-401), before the response
projection: the matching posts sorted newest-first, truncated to 20. -/
def feedPosts (db : DB) (uid : Nat) : Option (List PostR) :=
  (findUser db uid).map (fun user =>
    ((db.posts.filter (feedMatch user)).insertionSort newerFirst).take 20)

/-- GET /api/feed response body: the feed posts with likes null-filtered
and stringified and the author populated. -/
def feed (db : DB) (uid : Nat) : Option (List PostOut) :=
  (feedPosts db uid).map (fun l => l.map (toOut db))

/-- GET /api/posts of the src/unnamed/part_002 revision (lines 141-162),
before the response population: the same match predicate and
newest-first order as the src/server.js feed, but with no limit applied
at all. -/
def feedPostsV2 (db : DB) (uid : Nat) : Option (List PostR) :=
  (findUser db uid).map (fun user =>
    (db.posts.filter (feedMatch user)).insertionSort newerFirst)

/-- Enum check of the Post visibility field (src/server.js line 81);
Mongoose rejects the save when it fails. -/
def visValid (v : String) : Bool := v == "public" || v == "private"

/-- POST /api/posts of src/server.js (lines 404-437).  `pid` is the fresh
document id Mongo assigns.  Missing content is a 400; an invalid
visibility string makes the save throw (500). -/
def createPost (db : DB) (actorId : Nat) (content : String) (files : List String)
    (visibility : Option String) (pid now : Nat) : HRes :=
  if content = "" then { status := 400, db := db, trace := [], body := none }
  else
    match findUser db actorId with
    | none => { status := 404, db := db, trace := [], body := none }
    | some user =>
      let vis := match visibility with
        | some v => if v = "" then "public" else v
        | none => "public"
      if visValid vis then
        let p : PostR :=
          { id := pid, content := content, userId := user.id
            username := user.username, photos := files, likes := []
            comments := [], visibility := vis, createdAt := now }
        { status := 200
          db := { db with posts := db.posts ++ [presave p] }
          trace := [.savedPost pid]
          body := some (toOut db (presave p)) }
      else { status := 500, db := db, trace := [], body := none }

/-- The content patch of PUT /api/posts/:postId (src/server.js line 456):
`post.content = content || post.content` - a falsy (absent or empty)
patch value keeps the old content. -/
def patchContent (old : String) : Option String → String
  | some c => if c = "" then old else c
  | none => old

/-- The visibility patch of PUT /api/posts/:postId (src/server.js line
457), with the same falsy semantics. -/
def patchVis (old : String) : Option String → String
  | some v => if v = "" then old else v
  | none => old

/-- PUT /api/posts/:postId of src/server.js (lines 440-468): author-only
partial patch of content, visibility and photos. -/
def updatePost (db : DB) (actorId pid : Nat) (content visibility : Option String)
    (files : List String) : HRes :=
  match findPost db pid with
  | none => { status := 404, db := db, trace := [], body := none }
  | some post =>
    if post.userId ≠ actorId then
      { status := 403, db := db, trace := [], body := none }
    else
      let post' := { post with
        content := patchContent post.content content
        visibility := patchVis post.visibility visibility
        photos := if files.isEmpty then post.photos else files }
      if visValid post'.visibility then
        { status := 200
          db := savePostDB db post'
          trace := [.savedPost post.id]
          body := some (toOut db (presave post')) }
      else { status := 500, db := db, trace := [], body := none }

/-- POST /api/posts/:postId/like of src/server.js (lines 495-536):
set-add on likes, notification to the author unless the actor is the
author, likes null-filtered and stringified in the response. -/
def like (db : DB) (actorId pid now : Nat) (sessions : List Nat) : HRes :=
  match findUser db actorId, findPost db pid with
  | some user, some post =>
    if post.likes.contains (some user.id) then
      { status := 200, db := db, trace := [], body := some (toOut db post) }
    else
      let post' := { post with likes := post.likes ++ [some user.id] }
      let db1 := savePostDB db post'
      if post.userId = user.id then
        { status := 200, db := db1, trace := [.savedPost post.id]
          body := some (toOut db (presave post')) }
      else
        let n : NotificationR :=
          { userId := post.userId, fromUserId := user.id, ntype := .like
            postId := some post.id, createdAt := now }
        { status := 200
          db := addNotif db1 n
          trace := [.savedPost post.id, .savedNotification n,
                    .liveEmit post.userId (sessions.contains post.userId)]
          body := some (toOut db (presave post')) }
  | _, _ => { status := 404, db := db, trace := [], body := none }

/-- POST /api/posts/:postId/unlike of src/server.js (lines 539-564).  The
filter callback calls `id.toString()`, which throws on a null entry, so a
stored null like makes the route 500 without saving. -/
def unlike (db : DB) (actorId pid : Nat) : HRes :=
  match findUser db actorId, findPost db pid with
  | some user, some post =>
    if post.likes.contains none then
      { status := 500, db := db, trace := [], body := none }
    else
      let post' := { post with likes := post.likes.filter (fun l => l ≠ some user.id) }
      { status := 200
        db := savePostDB db post'
        trace := [.savedPost post.id]
        body := some (toOut db (presave post')) }
  | _, _ => { status := 404, db := db, trace := [], body := none }

/-- POST /api/posts/:postId/comment of src/server.js (lines 567-616):
rejects empty or over-100-character content before touching the store,
then appends the comment and notifies the author unless the actor is the
author. -/
def comment (db : DB) (actorId pid : Nat) (content : String) (now : Nat)
    (sessions : List Nat) : HRes :=
  if content = "" ∨ content.length > 100 then
    { status := 400, db := db, trace := [], body := none }
  else
    match findUser db actorId, findPost db pid with
    | some user, some post =>
      let post' := { post with comments := post.comments ++
        [{ userId := user.id, username := user.username, content := content
           createdAt := now }] }
      let db1 := savePostDB db post'
      if post.userId = user.id then
        { status := 200, db := db1, trace := [.savedPost post.id]
          body := some (toOut db (presave post')) }
      else
        let n : NotificationR :=
          { userId := post.userId, fromUserId := user.id, ntype := .comment
            postId := some post.id, createdAt := now }
        { status := 200
          db := addNotif db1 n
          trace := [.savedPost post.id, .savedNotification n,
                    .liveEmit post.userId (sessions.contains post.userId)]
          body := some (toOut db (presave post')) }
    | _, _ => { status := 404, db := db, trace := [], body := none }

/-- Serialization of a post as the part_002 routes return it: the raw
document with no populate (so no author projection); `likes` is listed as
the non-null stored ids.  A stored null like would serialize as a JSON
null, which this projection cannot represent; on the mutating branches
the document has just passed the pre-save hook so none exists, and on
the read-only branch the C4 invariant says the same of the store. -/
def rawOut (p : PostR) : PostOut :=
  { id := p.id
    content := p.content
    userId := p.userId
    author := none
    username := p.username
    photos := p.photos
    likes := p.likes.filterMap id
    comments := p.comments
    visibility := p.visibility
    createdAt := p.createdAt }

/-- POST /api/posts/:id/comment of the src/unnamed/part_002 revision
(lines 194-221): no length validation at all.  Empty content only fails
at save time through the schema required check (500); a missing user
makes the handler throw (500).  On the actor-is-not-author branch the
comment has already been persisted when the notification save throws on
the missing required `fromUsername`, so the route answers 500 with the
comment appended, no notification stored and no live emit. -/
def commentV2 (db : DB) (actorId pid : Nat) (content : String) (now : Nat)
    (_sessions : List Nat) : HRes :=
  match findPost db pid with
  | none => { status := 404, db := db, trace := [], body := none }
  | some post =>
    match findUser db actorId with
    | none => { status := 500, db := db, trace := [], body := none }
    | some user =>
      if content = "" then { status := 500, db := db, trace := [], body := none }
      else
        let post' := { post with comments := post.comments ++
          [{ userId := user.id, username := user.username, content := content
             createdAt := now }] }
        let db1 := savePostDB db post'
        if post.userId = actorId then
          { status := 200, db := db1, trace := [.savedPost post.id]
            body := some (rawOut (presave post')) }
        else
          { status := 500, db := db1, trace := [.savedPost post.id]
            body := none }

/-- POST /api/posts/:id/like of the src/unnamed/part_002 revision (lines
166-190): set-add on likes with no user lookup.  When the actor is not
the author the notification save throws on the missing required
`fromUsername` after the like has been persisted, so the route answers
500 with the like stored, no notification and no live emit. -/
def likeV2 (db : DB) (actorId pid _now : Nat)
    (_sessions : List Nat) : HRes :=
  match findPost db pid with
  | none => { status := 404, db := db, trace := [], body := none }
  | some post =>
    if post.likes.contains (some actorId) then
      { status := 200, db := db, trace := [], body := some (rawOut post) }
    else
      let post' := { post with likes := post.likes ++ [some actorId] }
      let db1 := savePostDB db post'
      if post.userId = actorId then
        { status := 200, db := db1, trace := [.savedPost post.id]
          body := some (rawOut (presave post')) }
      else
        { status := 500, db := db1, trace := [.savedPost post.id]
          body := none }

/-- The session token of src/server.js lines 151 and 175: jwt.sign of the
payload holding only the user id (and a constant secret), modelled
abstractly as a function of the id. -/
def signToken (uid : Nat) : String := "jwt." ++ toString uid

/-- Response body of POST /api/register and POST /api/login on success
(src/server.js lines 152 and 176): token, userId, username. -/
structure AuthBody where
  token : String
  userId : Nat
  username : String
deriving DecidableEq, Repr

/-- Successful POST /api/register body (src/server.js line 152). -/
def registerBody (u : UserR) : AuthBody :=
  { token := signToken u.id, userId := u.id, username := u.username }

/-- Successful POST /api/login body (src/server.js line 176). -/
def loginBody (u : UserR) : AuthBody :=
  { token := signToken u.id, userId := u.id, username := u.username }

/-- Response body of GET /api/main (src/server.js lines 194-199). -/
structure MainBody where
  userId : Nat
  username : String
  name : String
  profilePic : String
deriving DecidableEq, Repr

/-- GET /api/main body: the explicit four-field projection of the user. -/
def mainBody (u : UserR) : MainBody :=
  { userId := u.id, username := u.username, name := u.name
    profilePic := u.profilePic }

/-- One entry of the GET /api/users response (src/server.js lines
282-287): the projection username name profilePic followers following,
with `following` overwritten by the boolean follow status. -/
structure UserListEntry where
  username : String
  name : String
  profilePic : String
  followers : List Nat
  following : Bool
deriving DecidableEq, Repr

/-- GET /api/users entry for user `u` as seen by `currentUser`. -/
def usersEntry (currentUser u : UserR) : UserListEntry :=
  { username := u.username, name := u.name, profilePic := u.profilePic
    followers := u.followers
    following := currentUser.following.contains u.id }

/-- The user object of GET /api/users/:username in src/server.js (lines
225-233): explicit field list plus the isFollowing flag. -/
structure ProfileBody where
  id : Nat
  username : String
  name : String
  profilePic : String
  followers : List Nat
  following : List Nat
  isFollowing : Bool
deriving DecidableEq, Repr

/-- GET /api/users/:username (src/server.js) user object for `u` as seen
by `currentUser`. -/
def userProfileBody (currentUser u : UserR) : ProfileBody :=
  { id := u.id, username := u.username, name := u.name
    profilePic := u.profilePic, followers := u.followers
    following := u.following
    isFollowing := currentUser.following.contains u.id }

/-- The user document after `.select(-password)` as returned by GET
/api/profile and GET /api/users/:username of the src/unnamed/part_002
revision: every schema field except password. -/
structure ProfileV2Body where
  id : Nat
  username : String
  name : String
  profilePic : String
  bio : String
  followers : List Nat
  following : List Nat
deriving DecidableEq, Repr

/-- GET /api/profile body of the part_002 revision (lines 278-287). -/
def profileV2Body (u : UserR) : ProfileV2Body :=
  { id := u.id, username := u.username, name := u.name
    profilePic := u.profilePic, bio := u.bio, followers := u.followers
    following := u.following }

/-- GET /api/users/:username body of the part_002 revision (lines
314-332): the password-free user object plus the isFollowing flag. -/
def userProfileV2Body (currentUser u : UserR) : ProfileV2Body × Bool :=
  (profileV2Body u, currentUser.following.contains u.id)

/-- Overwriting the stored password hash of a user, leaving every other
field alone; used to state that responses do not depend on it. -/
def scrubUser (p : String) (u : UserR) : UserR := { u with password := p }

/-- Overwriting every stored password hash in the store. -/
def scrubDB (p : String) (db : DB) : DB :=
  { db with users := db.users.map (scrubUser p) }

/-- The result of the mutating branch of the src/server.js follow route,
named so the branch lemmas below stay readable. -/
def followFresh (db : DB) (ua ub : UserR) (targetId now : Nat)
    (sessions : List Nat) : HRes :=
  let n : NotificationR :=
    { userId := ub.id, fromUserId := ua.id, ntype := .follow
      postId := none, createdAt := now }
  { status := 200
    db := addNotif (updUser (updUser db ua.id
        (pushFollowing targetId)) ub.id (pushFollowers ua.id)) n
    trace := [.savedUser ua.id, .savedUser ub.id, .savedNotification n,
              .liveEmit ub.id (sessions.contains ub.id)]
    body := none }

/-- A user record with empty graph fields, for concrete witnesses. -/
def mkUser (i : Nat) (un : String) : UserR :=
  { id := i, username := un, name := "", password := "pw" ++ toString i
    profilePic := "", bio := "", followers := [], following := [] }

/-- Concrete two-user store used by witnesses. -/
def exDB : DB :=
  { users := [mkUser 1 "alice", mkUser 2 "bob"]
    posts := [{ id := 10, content := "hello", userId := 1, username := "alice"
                photos := ["p1"], likes := [], comments := []
                visibility := "public", createdAt := 3 }]
    notifications := [] }

/-- Concrete one-user store used by the self-follow counterexample. -/
def exDBsolo : DB := { users := [mkUser 1 "alice"], posts := [], notifications := [] }

/-- One of the 21 matching feed posts of the feed counterexample store. -/
def mkFeedPost (i : Nat) : PostR :=
  { id := 100 + i, content := "c", userId := 1, username := "alice"
    photos := [], likes := [], comments := [], visibility := "public"
    createdAt := i }

/-- Store with one user and 21 posts the feed query matches. -/
def exDBfeed : DB :=
  { users := [mkUser 1 "alice"], posts := (List.range 21).map mkFeedPost
    notifications := [] }

/-- The result of the mutating branch of the part_002 follow route: both
edge saves persist, then the notification save throws on the missing
required `fromUsername`, so the handler answers 500 with no notification
stored and no emit. -/
def followFreshV2 (db : DB) (uc ut : UserR) (actorId targetId : Nat) : HRes :=
  { status := 500
    db := updUser (updUser db uc.id
        (pushFollowing targetId)) ut.id (pushFollowers actorId)
    trace := [.savedUser uc.id, .savedUser ut.id]
    body := none }

/-- Concrete store where user 1 already follows user 2. -/
def exDBlinked : DB :=
  { users := [{ mkUser 1 "alice" with following := [2] },
              { mkUser 2 "bob" with followers := [1] }]
    posts := [], notifications := [] }

/-- A 100-character comment body. -/
def c100 : String := String.mk (List.replicate 100 'a')

/-- A 101-character comment body. -/
def c101 : String := String.mk (List.replicate 101 'a')

/-- The parts of a handler result visible to the calling client and the
store: everything except the live-delivery trace. -/
def respAgrees (r1 r2 : HRes) : Prop :=
  r1.status = r2.status ∧ r1.db = r2.db ∧ r1.body = r2.body

/-- Durability-before-delivery: every live emit in the trace is preceded
by the persisting of a notification record addressed to the emitted
room, and that record is present in the post-state store. -/
def emitAfterPersist (r : HRes) : Prop :=
  ∀ room d, Effect.liveEmit room d ∈ r.trace →
    ∃ n i j, i < j ∧
      r.trace.get? i = some (Effect.savedNotification n) ∧
      r.trace.get? j = some (Effect.liveEmit room d) ∧
      n ∈ r.db.notifications ∧ n.userId = room

/-- Finding in a mapped user list: when the update preserves ids, the
lookup commutes with the per-record update. -/
theorem find?_map_id_preserving (l : List UserR) (g : UserR → UserR)
    (hg : ∀ u, (g u).id = u.id) (v : Nat) :
    (l.map g).find? (fun u => u.id == v) =
      (l.find? (fun u => u.id == v)).map g := by
  induction l with
  | nil => rfl
  | cons u t ih =>
    by_cases h : u.id = v
    · simp [List.find?_cons, hg, h]
    · simp [List.find?_cons, hg, h, ih]

/-- `findUser` after persisting one field-path update. -/
theorem findUser_updUser (db : DB) (uid : Nat) (f : UserR → UserR)
    (hf : ∀ u, (f u).id = u.id) (v : Nat) :
    findUser (updUser db uid f) v =
      (findUser db v).map (fun u => if u.id = uid then f u else u) := by
  unfold findUser updUser
  exact find?_map_id_preserving db.users _
    (fun u => by by_cases h : u.id = uid <;> simp [h, hf]) v

/-- Inserting a notification changes no user lookup. -/
theorem findUser_addNotif (db : DB) (n : NotificationR) (v : Nat) :
    findUser (addNotif db n) v = findUser db v := rfl

/-- Saving a post changes no user lookup. -/
theorem findUser_savePostDB (db : DB) (p : PostR) (v : Nat) :
    findUser (savePostDB db p) v = findUser db v := rfl

/-- A found user has the looked-up id. -/
theorem findUser_id {db : DB} {uid : Nat} {u : UserR}
    (h : findUser db uid = some u) : u.id = uid := by
  have := List.find?_some h
  simpa using this

/-- A found post has the looked-up id. -/
theorem findPost_id {db : DB} {pid : Nat} {p : PostR}
    (h : findPost db pid = some p) : p.id = pid := by
  have := List.find?_some h
  simpa using this

/-- Finding in a mapped post list, id-preserving version. -/
theorem find?_map_id_preserving_post (l : List PostR) (g : PostR → PostR)
    (hg : ∀ p, (g p).id = p.id) (v : Nat) :
    (l.map g).find? (fun p => p.id == v) =
      (l.find? (fun p => p.id == v)).map g := by
  induction l with
  | nil => rfl
  | cons p t ih =>
    by_cases h : p.id = v
    · simp [List.find?_cons, hg, h]
    · simp [List.find?_cons, hg, h, ih]

/-- `findPost` after a post save: the looked-up post is replaced when it
has the saved id, untouched otherwise. -/
theorem findPost_savePostDB (db : DB) (p : PostR) (v : Nat) :
    findPost (savePostDB db p) v =
      (findPost db v).map (fun q => if q.id = p.id then presave p else q) := by
  unfold findPost savePostDB
  exact find?_map_id_preserving_post db.posts _
    (fun q => by
      by_cases h : q.id = p.id
      · simp [h, presave]
      · simp [h]) v

/-- `findPost` ignores notifications. -/
theorem findPost_addNotif (db : DB) (n : NotificationR) (v : Nat) :
    findPost (addNotif db n) v = findPost db v := rfl

/-- The likes invariant of the spec: no duplicate and no null entries. -/
def likesOk (l : List (Option Nat)) : Prop := l.Nodup ∧ none ∉ l

instance : DecidablePred likesOk := fun l =>
  inferInstanceAs (Decidable (l.Nodup ∧ none ∉ l))

/-- In a duplicate-free list every count is at most one. -/
theorem count_le_one_of_nodup {l : List (Option Nat)} (h : l.Nodup)
    (a : Option Nat) : l.count a ≤ 1 := by
  induction l with
  | nil => simp
  | cons x t ih =>
    rcases List.nodup_cons.mp h with ⟨hx, ht⟩
    by_cases hax : a = x
    · subst hax
      have : t.count a = 0 := by
        simpa using (List.count_eq_zero).mpr hx
      simp [List.count_cons, this]
    · have := ih ht
      simp [List.count_cons, hax]
      omega

/-- An element of a duplicate-free list is counted exactly once. -/
theorem count_eq_one_of_nodup_mem {l : List (Option Nat)} (h : l.Nodup)
    {a : Option Nat} (ha : a ∈ l) : l.count a = 1 :=
  Nat.le_antisymm (count_le_one_of_nodup h a) (List.one_le_count_iff.mpr ha)

/-- Null-stripping leaves a likes list that already satisfies the
invariant unchanged. -/
theorem presave_of_likesOk {p : PostR} (h : likesOk p.likes) :
    presave p = p := by
  unfold presave
  have : p.likes.filter (fun l => l.isSome) = p.likes := by
    refine List.filter_eq_self.mpr ?_
    intro a ha
    cases a with
    | none => exact absurd ha h.2
    | some x => rfl
  simp [this]

/-- Branch lemma: follow on a pair not yet linked takes the mutating
branch. -/
theorem follow_eq_fresh {db : DB} {a b now : Nat} {s : List Nat}
    {ua ub : UserR} (hu : findUser db a = some ua) (ht : findUser db b = some ub)
    (hself : ¬ ua.id = b) (hf : ¬ ua.following.contains b) :
    follow db a b now s = followFresh db ua ub b now s := by
  unfold follow followFresh
  rw [hu, ht]
  dsimp only
  rw [if_neg hself, if_neg hf]

/-- Branch lemma: follow on an already-linked pair is the silent success
branch. -/
theorem follow_eq_noop {db : DB} {a b now : Nat} {s : List Nat}
    {ua ub : UserR} (hu : findUser db a = some ua) (ht : findUser db b = some ub)
    (hself : ¬ ua.id = b) (hf : ua.following.contains b) :
    follow db a b now s = { status := 200, db := db, trace := [], body := none } := by
  unfold follow
  rw [hu, ht]
  dsimp only
  rw [if_neg hself, if_pos hf]

/-- `findUser` after persisting a following push. -/
theorem findUser_pushFollowing (db : DB) (uid t v : Nat) :
    findUser (updUser db uid (pushFollowing t)) v =
      (findUser db v).map (fun u => if u.id = uid then pushFollowing t u else u) :=
  findUser_updUser db uid (pushFollowing t) (fun _ => rfl) v

/-- `findUser` after persisting a followers push. -/
theorem findUser_pushFollowers (db : DB) (uid a v : Nat) :
    findUser (updUser db uid (pushFollowers a)) v =
      (findUser db v).map (fun u => if u.id = uid then pushFollowers a u else u) :=
  findUser_updUser db uid (pushFollowers a) (fun _ => rfl) v

/-- User lookups after the mutating follow branch. -/
theorem findUser_followFresh_actor {db : DB} {a b now : Nat} {s : List Nat}
    {ua ub : UserR} (hu : findUser db a = some ua)
    (hida : ua.id = a) (hidb : ub.id = b) (hab : a ≠ b) :
    findUser (followFresh db ua ub b now s).db a =
      some (pushFollowing b ua) := by
  show findUser (addNotif (updUser (updUser db ua.id _) ub.id _) _) a = _
  rw [findUser_addNotif, findUser_pushFollowers, findUser_pushFollowing, hu]
  have h1 : ¬ (pushFollowing b ua).id = ub.id := by
    show ¬ ua.id = ub.id
    rw [hida, hidb]; exact hab
  simp [hida, h1]

/-- Target lookup after the mutating follow branch. -/
theorem findUser_followFresh_target {db : DB} {a b now : Nat} {s : List Nat}
    {ua ub : UserR} (ht : findUser db b = some ub)
    (hida : ua.id = a) (hidb : ub.id = b) (hab : a ≠ b) :
    findUser (followFresh db ua ub b now s).db b =
      some (pushFollowers ua.id ub) := by
  show findUser (addNotif (updUser (updUser db ua.id _) ub.id _) _) b = _
  rw [findUser_addNotif, findUser_pushFollowers, findUser_pushFollowing, ht]
  have h1 : ¬ b = ua.id := by rw [hida]; exact fun h => hab h.symm
  simp [h1, hidb]


/-- C1: for every pair of distinct known users A and B, after follow(A, B)
succeeds, the persisted state has B in A.following and A in B.followers
(both User records persisted), and a subsequent isFollowing(A, B) read
returns true.  The `hsym` hypothesis excludes a pre-state holding a
half-written edge (B already in A.following but A missing from
B.followers), which no crash-free run of the modelled operations
produces. -/
theorem follow_establishes_edge (db : DB) (a b now : Nat) (s : List Nat)
    (ua ub : UserR) (hu : findUser db a = some ua) (ht : findUser db b = some ub)
    (hab : a ≠ b)
    (hsym : ua.following.contains b → ub.followers.contains a) :
    (follow db a b now s).status = 200 ∧
    (∃ ua', findUser (follow db a b now s).db a = some ua' ∧
      ua'.following.contains b) ∧
    (∃ ub', findUser (follow db a b now s).db b = some ub' ∧
      ub'.followers.contains a) ∧
    isFollowing (follow db a b now s).db a b = true := by
  have hida : ua.id = a := findUser_id hu
  have hidb : ub.id = b := findUser_id ht
  have hself : ¬ ua.id = b := by rw [hida]; exact hab
  by_cases hf : ua.following.contains b
  · rw [follow_eq_noop hu ht hself hf]
    refine ⟨rfl, ⟨ua, hu, hf⟩, ⟨ub, ht, hsym hf⟩, ?_⟩
    unfold isFollowing
    rw [hu]
    exact hf
  · rw [follow_eq_fresh hu ht hself hf]
    have hA := @findUser_followFresh_actor db a b now s ua ub hu hida hidb hab
    have hB := @findUser_followFresh_target db a b now s ua ub ht hida hidb hab
    refine ⟨rfl, ⟨_, hA, by simp [pushFollowing]⟩,
      ⟨_, hB, by simp [pushFollowers, hida]⟩, ?_⟩
    unfold isFollowing
    rw [hA]
    simp [pushFollowing]

/-- Witness for C1 at the concrete two-user store. -/
theorem follow_establishes_edge_witness :
    (follow exDB 1 2 5 []).status = 200 ∧
    (∃ ua', findUser (follow exDB 1 2 5 []).db 1 = some ua' ∧
      ua'.following.contains 2) ∧
    (∃ ub', findUser (follow exDB 1 2 5 []).db 2 = some ub' ∧
      ub'.followers.contains 1) ∧
    isFollowing (follow exDB 1 2 5 []).db 1 2 = true :=
  follow_establishes_edge exDB 1 2 5 [] (mkUser 1 "alice") (mkUser 2 "bob")
    (by decide) (by decide) (by decide) (by decide)

/-- Branch lemma: the part_002 follow route on a pair not yet linked takes
its mutating branch (there is no self-follow check to pass). -/
theorem followV2_eq_fresh {db : DB} {a b now : Nat} {s : List Nat}
    {ut uc : UserR} (ht : findUser db b = some ut) (hu : findUser db a = some uc)
    (hf : ¬ uc.following.contains b) :
    followV2 db a b now s = followFreshV2 db uc ut a b := by
  unfold followV2 followFreshV2
  rw [ht, hu]
  dsimp only
  rw [if_neg hf]

/-- C2: a second follow of an already-followed target succeeds while
changing no User record, adding no duplicate entry and creating no
Notification (the store is returned unchanged and the effect trace is
empty). -/
theorem follow_second_call_noop (db : DB) (a b now : Nat) (s : List Nat)
    (ua ub : UserR) (hu : findUser db a = some ua) (ht : findUser db b = some ub)
    (hab : a ≠ b) (hf : ua.following.contains b) :
    (follow db a b now s).status = 200 ∧ (follow db a b now s).db = db ∧
    (follow db a b now s).trace = [] := by
  rw [follow_eq_noop hu ht (by rw [findUser_id hu]; exact hab) hf]
  exact ⟨rfl, rfl, rfl⟩

/-- Witness for C2 at a store where user 1 already follows user 2. -/
theorem follow_second_call_noop_witness :
    (follow exDBlinked 1 2 5 []).status = 200 ∧
    (follow exDBlinked 1 2 5 []).db = exDBlinked ∧
    (follow exDBlinked 1 2 5 []).trace = [] :=
  follow_second_call_noop exDBlinked 1 2 5 []
    { mkUser 1 "alice" with following := [2] }
    { mkUser 2 "bob" with followers := [1] }
    (by decide) (by decide) (by decide) (by decide)

/-- C3 counterexample: in the part_002 revision a self-follow is not
rejected and does cause a state change - the route runs its mutating
branch, persisting the user as its own follower and following, before
its notification save throws (missing required `fromUsername`) and the
catch answers 500 - refuting the claim that follow(A, A) fails with
InvalidOperation and causes no state change. -/
theorem followV2_self_mutates_counterexample :
    (followV2 exDBsolo 1 1 7 []).status = 500 ∧
    (followV2 exDBsolo 1 1 7 []).db ≠ exDBsolo ∧
    findUser (followV2 exDBsolo 1 1 7 []).db 1 =
      some { mkUser 1 "alice" with following := [1], followers := [1] } ∧
    (followV2 exDBsolo 1 1 7 []).db.notifications = [] := by
  refine ⟨by decide, by decide, by decide, by decide⟩

/-- C3 amended: the src/server.js revision rejects follow(A, A) with 400
and no state change (no record mutation, no notification, empty trace);
the part_002 revision has no self-follow check: it persists A into its
own following and followers lists, then its notification save fails
validation and the call answers 500 with the self-edge already stored
and no notification persisted. -/
theorem follow_self_amended (db : DB) (a now : Nat) (s : List Nat)
    (ua : UserR) (hu : findUser db a = some ua) :
    follow db a a now s = { status := 400, db := db, trace := [], body := none } ∧
    (¬ ua.following.contains a →
      (followV2 db a a now s).status = 500 ∧
      findUser (followV2 db a a now s).db a =
        some (pushFollowers a (pushFollowing a ua)) ∧
      (followV2 db a a now s).db.notifications = db.notifications) := by
  have hida : ua.id = a := findUser_id hu
  constructor
  · unfold follow
    rw [hu]
    dsimp only
    rw [if_pos hida]
  · intro hf
    rw [followV2_eq_fresh hu hu hf]
    refine ⟨rfl, ?_, rfl⟩
    show findUser (updUser (updUser db ua.id _) ua.id _) a = _
    rw [findUser_pushFollowers, findUser_pushFollowing, hu]
    simp [hida, pushFollowing]

/-- Witness for the amended C3 at the one-user store. -/
theorem follow_self_amended_witness :
    follow exDBsolo 1 1 7 [] =
      { status := 400, db := exDBsolo, trace := [], body := none } ∧
    ((followV2 exDBsolo 1 1 7 []).status = 500 ∧
      findUser (followV2 exDBsolo 1 1 7 []).db 1 =
        some (pushFollowers 1 (pushFollowing 1 (mkUser 1 "alice"))) ∧
      (followV2 exDBsolo 1 1 7 []).db.notifications = exDBsolo.notifications) := by
  have h := follow_self_amended exDBsolo 1 7 [] (mkUser 1 "alice") (by decide)
  exact ⟨h.1, h.2 (by decide)⟩

/-- C5: no operation ever persists a Notification whose triggering user
equals its target.  In src/server.js every Notification present after a
like, comment or follow call either predates the call or has distinct
target and triggering users; in the part_002 revision no route ever
persists any Notification at all - its notification saves fail
validation on the missing required `fromUsername` - so the notification
collection is unchanged by followV2, commentV2 and likeV2. -/
theorem no_self_notification (db : DB) (a pid b now : Nat) (s : List Nat)
    (c : String) :
    (∀ n ∈ (like db a pid now s).db.notifications,
      n ∈ db.notifications ∨ n.userId ≠ n.fromUserId) ∧
    (∀ n ∈ (comment db a pid c now s).db.notifications,
      n ∈ db.notifications ∨ n.userId ≠ n.fromUserId) ∧
    (∀ n ∈ (follow db a b now s).db.notifications,
      n ∈ db.notifications ∨ n.userId ≠ n.fromUserId) ∧
    (followV2 db a b now s).db.notifications = db.notifications ∧
    (commentV2 db a pid c now s).db.notifications = db.notifications ∧
    (likeV2 db a pid now s).db.notifications = db.notifications := by
  refine ⟨?_, ?_, ?_, ?_, ?_, ?_⟩
  · unfold like
    cases hu : findUser db a with
    | none => intro n hn; exact Or.inl hn
    | some user =>
      cases hp : findPost db pid with
      | none => intro n hn; exact Or.inl hn
      | some post =>
        dsimp only
        by_cases hl : post.likes.contains (some user.id)
        · rw [if_pos hl]; intro n hn; exact Or.inl hn
        · rw [if_neg hl]
          by_cases ho : post.userId = user.id
          · rw [if_pos ho]; intro n hn; exact Or.inl hn
          · rw [if_neg ho]
            intro n hn
            rcases List.mem_append.mp hn with h | h
            · exact Or.inl h
            · right
              rw [List.mem_singleton.mp h]
              exact ho
  · unfold comment
    by_cases hc : c = "" ∨ c.length > 100
    · rw [if_pos hc]; intro n hn; exact Or.inl hn
    · rw [if_neg hc]
      cases hu : findUser db a with
      | none => intro n hn; exact Or.inl hn
      | some user =>
        cases hp : findPost db pid with
        | none => intro n hn; exact Or.inl hn
        | some post =>
          dsimp only
          by_cases ho : post.userId = user.id
          · rw [if_pos ho]; intro n hn; exact Or.inl hn
          · rw [if_neg ho]
            intro n hn
            rcases List.mem_append.mp hn with h | h
            · exact Or.inl h
            · right
              rw [List.mem_singleton.mp h]
              exact ho
  · unfold follow
    cases hu : findUser db a with
    | none => intro n hn; exact Or.inl hn
    | some user =>
      cases ht : findUser db b with
      | none => intro n hn; exact Or.inl hn
      | some target =>
        dsimp only
        by_cases hself : user.id = b
        · rw [if_pos hself]; intro n hn; exact Or.inl hn
        · rw [if_neg hself]
          by_cases hf : user.following.contains b
          · rw [if_pos hf]; intro n hn; exact Or.inl hn
          · rw [if_neg hf]
            intro n hn
            rcases List.mem_append.mp hn with h | h
            · exact Or.inl h
            · right
              rw [List.mem_singleton.mp h]
              intro hEq
              have hbt : target.id = b := by
                have := List.find?_some ht
                simpa using this
              have hEq' : target.id = user.id := hEq
              exact hself (hbt ▸ hEq'.symm)
  · unfold followV2
    cases ht : findUser db b with
    | none => rfl
    | some target =>
      cases hu : findUser db a with
      | none => rfl
      | some user =>
        dsimp only
        split_ifs <;> rfl
  · unfold commentV2
    cases hp : findPost db pid with
    | none => rfl
    | some post =>
      cases hu : findUser db a with
      | none => rfl
      | some user =>
        dsimp only
        split_ifs <;> rfl
  · unfold likeV2
    cases hp : findPost db pid with
    | none => rfl
    | some post =>
      dsimp only
      split_ifs <;> rfl

/-- Witness for C5: the notification produced when user 2 likes the
post of user 1 has distinct target and triggering users. -/
theorem no_self_notification_witness :
    ({ userId := 1, fromUserId := 2, ntype := .like, postId := some 10
       createdAt := 5 } : NotificationR) ∈ exDB.notifications ∨
    ({ userId := 1, fromUserId := 2, ntype := .like, postId := some 10
       createdAt := 5 } : NotificationR).userId ≠
    ({ userId := 1, fromUserId := 2, ntype := .like, postId := some 10
       createdAt := 5 } : NotificationR).fromUserId :=
  (no_self_notification exDB 2 10 1 5 [] "c").1
    { userId := 1, fromUserId := 2, ntype := .like, postId := some 10
      createdAt := 5 } (by decide)

/-- Filtering preserves the likes invariant. -/
theorem likesOk_filter {l : List (Option Nat)} (hl : likesOk l)
    (p : Option Nat → Bool) : likesOk (l.filter p) :=
  ⟨hl.1.filter p, fun h => hl.2 (List.mem_of_mem_filter h)⟩

/-- The pre-save hook yields an invariant likes list from any
duplicate-free one: null entries are exactly what it strips. -/
theorem likesOk_presave_of_nodup {l : List (Option Nat)} (h : l.Nodup) :
    likesOk (l.filter (fun x => x.isSome)) := by
  refine ⟨h.filter _, fun hmem => ?_⟩
  have := (List.mem_filter.mp hmem).2
  simp at this

/-- Stripping the `some` wrappers off a duplicate-free option list keeps
it duplicate-free. -/
theorem nodup_filterMap_id {l : List (Option Nat)} (h : l.Nodup) :
    (l.filterMap id).Nodup := by
  refine List.Nodup.filterMap ?_ h
  intro a a' b hb hb'
  cases a <;> cases a' <;> simp_all

/-- Appending a fresh like keeps the list duplicate-free. -/
theorem nodup_append_fresh {l : List (Option Nat)} {u : Nat}
    (hn : l.Nodup) (h : (some u) ∉ l) : (l ++ [some u]).Nodup := by
  refine List.Nodup.append hn (List.nodup_singleton _) ?_
  intro x hx hx2
  rw [List.mem_singleton.mp hx2] at hx
  exact h hx

/-- Looking up the post a save just wrote returns its hook-filtered
version. -/
theorem findPost_savePost_self {db : DB} {pid : Nat} {post : PostR}
    (hp : findPost db pid = some post) (pp : PostR) (hid : pp.id = post.id) :
    findPost (savePostDB db pp) pid = some (presave pp) := by
  rw [findPost_savePostDB, hp]
  have : post.id = pp.id := by rw [hid]
  simp [this]

/-- C4: every mutation path - like, unlike, comment, updatePost,
createPost - leaves the persisted likes list free of null and duplicate
entries and returns a duplicate-free likes list, and after like(U, P) the
user U is counted exactly once in the persisted likes of P.  The
hypothesis `hl` is the invariant for the pre-state post, which createPost
establishes and every path preserves. -/
theorem likes_invariant (db : DB) (a pid now cpid : Nat) (s : List Nat)
    (c content : String) (files : List String) (vis cp vp : Option String)
    (user : UserR) (post : PostR)
    (hu : findUser db a = some user) (hp : findPost db pid = some post)
    (hl : likesOk post.likes) :
    ((∀ q, findPost (like db a pid now s).db pid = some q →
        likesOk q.likes ∧ q.likes.count (some user.id) = 1) ∧
      (∀ o, (like db a pid now s).body = some o → o.likes.Nodup)) ∧
    ((∀ q, findPost (unlike db a pid).db pid = some q → likesOk q.likes) ∧
      (∀ o, (unlike db a pid).body = some o → o.likes.Nodup)) ∧
    ((∀ q, findPost (comment db a pid c now s).db pid = some q → likesOk q.likes) ∧
      (∀ o, (comment db a pid c now s).body = some o → o.likes.Nodup)) ∧
    ((∀ q, findPost (updatePost db a pid cp vp files).db pid = some q →
        likesOk q.likes) ∧
      (∀ o, (updatePost db a pid cp vp files).body = some o → o.likes.Nodup)) ∧
    ((∀ q, q ∈ (createPost db a content files vis cpid now).db.posts →
        q ∈ db.posts ∨ likesOk q.likes) ∧
      (∀ o, (createPost db a content files vis cpid now).body = some o →
        o.likes.Nodup)) := by
  refine ⟨?_, ?_, ?_, ?_, ?_⟩
  · -- like
    unfold like
    rw [hu, hp]
    dsimp only
    by_cases hc : post.likes.contains (some user.id)
    · rw [if_pos hc]
      have hmem : (some user.id) ∈ post.likes := by
        simpa [List.elem_iff] using hc
      refine ⟨fun q hq => ?_, fun o ho => ?_⟩
      · rw [hp] at hq
        cases hq
        exact ⟨hl, count_eq_one_of_nodup_mem hl.1 hmem⟩
      · cases ho
        exact nodup_filterMap_id hl.1
    · rw [if_neg hc]
      have hmem : (some user.id) ∉ post.likes := by
        simpa [List.elem_iff] using hc
      have hnd : (post.likes ++ [some user.id]).Nodup :=
        nodup_append_fresh hl.1 hmem
      have hok : likesOk ((post.likes ++ [some user.id]).filter
          (fun x => x.isSome)) := likesOk_presave_of_nodup hnd
      have hcount : ((post.likes ++ [some user.id]).filter
          (fun x => x.isSome)).count (some user.id) = 1 := by
        refine count_eq_one_of_nodup_mem hok.1 ?_
        refine List.mem_filter.mpr ⟨List.mem_append.mpr (Or.inr ?_), rfl⟩
        exact List.mem_singleton.mpr rfl
      have hsave := findPost_savePost_self hp
        { post with likes := post.likes ++ [some user.id] } rfl
      by_cases ho : post.userId = user.id
      · rw [if_pos ho]
        refine ⟨fun q hq => ?_, fun o hoo => ?_⟩
        · rw [hsave] at hq
          simp only [Option.some.injEq] at hq
          subst hq
          exact ⟨hok, hcount⟩
        · cases hoo
          exact nodup_filterMap_id hok.1
      · rw [if_neg ho]
        refine ⟨fun q hq => ?_, fun o hoo => ?_⟩
        · rw [findPost_addNotif, hsave] at hq
          simp only [Option.some.injEq] at hq
          subst hq
          exact ⟨hok, hcount⟩
        · cases hoo
          exact nodup_filterMap_id hok.1
  · -- unlike
    unfold unlike
    rw [hu, hp]
    dsimp only
    have hnone : ¬ post.likes.contains none := by
      simpa [List.elem_iff] using hl.2
    rw [if_neg hnone]
    have hok : likesOk ((post.likes.filter (fun l => l ≠ some user.id)).filter
        (fun x => x.isSome)) :=
      likesOk_presave_of_nodup ((likesOk_filter hl _).1)
    have hsave := findPost_savePost_self hp
      { post with likes := post.likes.filter (fun l => l ≠ some user.id) } rfl
    refine ⟨fun q hq => ?_, fun o ho => ?_⟩
    · rw [hsave] at hq
      simp only [Option.some.injEq] at hq
      subst hq
      exact hok
    · cases ho
      exact nodup_filterMap_id hok.1
  · -- comment
    unfold comment
    by_cases hcv : c = "" ∨ c.length > 100
    · rw [if_pos hcv]
      refine ⟨fun q hq => ?_, fun o ho => ?_⟩
      · rw [hp] at hq
        cases hq
        exact hl
      · cases ho
    · rw [if_neg hcv]
      rw [hu, hp]
      dsimp only
      have hok : likesOk (post.likes.filter (fun x => x.isSome)) :=
        likesOk_presave_of_nodup hl.1
      have hsave := findPost_savePost_self hp
        { post with comments := post.comments ++
          [{ userId := user.id, username := user.username, content := c
             createdAt := now }] } rfl
      by_cases ho : post.userId = user.id
      · rw [if_pos ho]
        refine ⟨fun q hq => ?_, fun o hoo => ?_⟩
        · rw [hsave] at hq
          simp only [Option.some.injEq] at hq
          subst hq
          exact hok
        · cases hoo
          exact nodup_filterMap_id hok.1
      · rw [if_neg ho]
        refine ⟨fun q hq => ?_, fun o hoo => ?_⟩
        · rw [findPost_addNotif, hsave] at hq
          simp only [Option.some.injEq] at hq
          subst hq
          exact hok
        · cases hoo
          exact nodup_filterMap_id hok.1
  · -- updatePost
    unfold updatePost
    rw [hp]
    dsimp only
    by_cases hown : post.userId ≠ a
    · rw [if_pos hown]
      refine ⟨fun q hq => ?_, fun o ho => ?_⟩
      · rw [hp] at hq
        cases hq
        exact hl
      · cases ho
    · rw [if_neg hown]
      have hok : likesOk (post.likes.filter (fun x => x.isSome)) :=
        likesOk_presave_of_nodup hl.1
      have hsave := findPost_savePost_self hp
        { post with content := patchContent post.content cp
                    visibility := patchVis post.visibility vp
                    photos := if files.isEmpty then post.photos else files } rfl
      by_cases hv : visValid (patchVis post.visibility vp)
      · rw [if_pos hv]
        refine ⟨fun q hq => ?_, fun o ho => ?_⟩
        · rw [hsave] at hq
          simp only [Option.some.injEq] at hq
          subst hq
          exact hok
        · cases ho
          exact nodup_filterMap_id hok.1
      · rw [if_neg hv]
        refine ⟨fun q hq => ?_, fun o ho => ?_⟩
        · rw [hp] at hq
          cases hq
          exact hl
        · cases ho
  · -- createPost
    unfold createPost
    by_cases hcc : content = ""
    · rw [if_pos hcc]
      exact ⟨fun q hq => Or.inl hq, fun o ho => by cases ho⟩
    · rw [if_neg hcc]
      rw [hu]
      dsimp only
      by_cases hv : visValid (match vis with
        | some v => if v = "" then "public" else v
        | none => "public")
      · rw [if_pos hv]
        refine ⟨fun q hq => ?_, fun o ho => ?_⟩
        · rcases List.mem_append.mp hq with h | h
          · exact Or.inl h
          · right
            rw [List.mem_singleton.mp h]
            exact ⟨List.nodup_nil, by simp [presave]⟩
        · cases ho
          simp [toOut, presave]
      · rw [if_neg hv]
        exact ⟨fun q hq => Or.inl hq, fun o ho => by cases ho⟩

/-- Witness for C4: user 2 likes post 10 of the concrete store; the
persisted likes list is exactly one entry, invariant and counting user 2
once. -/
theorem likes_invariant_witness :
    likesOk ([some 2] : List (Option Nat)) ∧
    ([some 2] : List (Option Nat)).count (some 2) = 1 :=
  (likes_invariant exDB 2 10 5 99 [] "c" "txt" [] none none none
      (mkUser 2 "bob")
      { id := 10, content := "hello", userId := 1, username := "alice"
        photos := ["p1"], likes := [], comments := [], visibility := "public"
        createdAt := 3 }
      (by decide) (by decide) (by decide)).1.1
    { id := 10, content := "hello", userId := 1, username := "alice"
      photos := ["p1"], likes := [some 2], comments := [], visibility := "public"
      createdAt := 3 } (by decide)

/-- C6 counterexample: the part_002 comment route accepts a 101-character
comment - here the author comments on their own post, so no notification
save is attempted, the route returns 200 and the comment is appended -
refuting the claim that every comment call with content longer than 100
characters fails with InvalidInput. -/
theorem commentV2_accepts_101_counterexample :
    c101.length = 101 ∧
    (commentV2 exDB 1 10 c101 5 []).status = 200 ∧
    findPost (commentV2 exDB 1 10 c101 5 []).db 10 =
      some { id := 10, content := "hello", userId := 1, username := "alice"
             photos := ["p1"], likes := [], visibility := "public", createdAt := 3
             comments := [{ userId := 1, username := "alice", content := c101
                            createdAt := 5 }] } := by
  refine ⟨by decide, by decide, by decide⟩

/-- C6 amended: in the src/server.js revision, comment fails with 400 and
an unchanged store when the content is empty or longer than 100
characters, and succeeds - appending the comment - when the length is
exactly 100; the part_002 revision performs no such validation (see the
counterexample). -/
theorem comment_length_validation (db : DB) (a pid now : Nat) (s : List Nat)
    (c : String) (user : UserR) (post : PostR)
    (hu : findUser db a = some user) (hp : findPost db pid = some post) :
    (c = "" ∨ c.length > 100 →
      comment db a pid c now s = { status := 400, db := db, trace := [], body := none }) ∧
    (c.length = 100 →
      (comment db a pid c now s).status = 200 ∧
      findPost (comment db a pid c now s).db pid =
        some (presave { post with comments := post.comments ++
          [{ userId := user.id, username := user.username, content := c
             createdAt := now }] })) := by
  constructor
  · intro hbad
    unfold comment
    rw [if_pos hbad]
  · intro hlen
    have hok : ¬ (c = "" ∨ c.length > 100) := by
      rintro (h | h)
      · rw [h] at hlen
        simp at hlen
      · omega
    unfold comment
    rw [if_neg hok, hu, hp]
    dsimp only
    have hsave := findPost_savePost_self hp
      { post with comments := post.comments ++
        [{ userId := user.id, username := user.username, content := c
           createdAt := now }] } rfl
    by_cases ho : post.userId = user.id
    · rw [if_pos ho]
      exact ⟨rfl, hsave⟩
    · rw [if_neg ho]
      exact ⟨rfl, by rw [findPost_addNotif, hsave]⟩

/-- Witness for the amended C6: a 101-character comment is rejected with
the store unchanged, and a 100-character comment succeeds, on the
concrete store. -/
theorem comment_length_validation_witness :
    comment exDB 2 10 c101 5 [] =
      { status := 400, db := exDB, trace := [], body := none } ∧
    (comment exDB 2 10 c100 5 []).status = 200 := by
  constructor
  · exact (comment_length_validation exDB 2 10 5 [] c101 (mkUser 2 "bob")
      { id := 10, content := "hello", userId := 1, username := "alice"
        photos := ["p1"], likes := [], comments := [], visibility := "public"
        createdAt := 3 } (by decide) (by decide)).1 (Or.inr (by decide))
  · exact ((comment_length_validation exDB 2 10 5 [] c100 (mkUser 2 "bob")
      { id := 10, content := "hello", userId := 1, username := "alice"
        photos := ["p1"], likes := [], comments := [], visibility := "public"
        createdAt := 3 } (by decide) (by decide)).2 (by decide)).1

/-- C7 counterexample: the src/server.js feed truncates at 20, not at a
default of 50 - with 21 matching posts (well under 50) the feed returns
only 20 and drops the oldest matching post, refuting the claim that the
feed returns exactly the matching posts up to a default cap of 50. -/
theorem feed_cap_counterexample :
    ((feedPosts exDBfeed 1).getD []).length = 20 ∧
    (exDBfeed.posts.filter (feedMatch (mkUser 1 "alice"))).length = 21 ∧
    (21 ≤ 50) ∧
    mkFeedPost 0 ∈ exDBfeed.posts ∧
    feedMatch (mkUser 1 "alice") (mkFeedPost 0) ∧
    mkFeedPost 0 ∉ (feedPosts exDBfeed 1).getD [] := by
  refine ⟨by decide, by decide, by decide, by decide, by decide, by decide⟩

/-- C7 amended: the feed of src/server.js returns only posts matching the
query - public posts of followed users or self, plus any post of self -
sorted newest-first and truncated at 20 (the hard-coded limit, not a
configurable default of 50), no other user's private post ever
appearing; when at most 20 posts match, every matching post is returned.
The part_002 feed runs the same match and order but applies no cap: it
returns a sorted list holding every matching post. -/
theorem feed_spec (db : DB) (uid : Nat) (user : UserR)
    (hu : findUser db uid = some user) :
    (∃ L, feedPosts db uid = some L ∧
      feed db uid = some (L.map (toOut db)) ∧
      L.length ≤ 20 ∧
      List.Sorted newerFirst L ∧
      (∀ p ∈ L, feedMatch user p) ∧
      (∀ p ∈ L, p.visibility ≠ "public" → p.userId = uid) ∧
      ((db.posts.filter (feedMatch user)).length ≤ 20 →
        ∀ p ∈ db.posts, feedMatch user p → p ∈ L)) ∧
    (∃ L2, feedPostsV2 db uid = some L2 ∧
      L2.length = (db.posts.filter (feedMatch user)).length ∧
      List.Sorted newerFirst L2 ∧
      (∀ p ∈ L2, feedMatch user p) ∧
      (∀ p ∈ db.posts, feedMatch user p → p ∈ L2)) := by
  constructor
  swap
  · refine ⟨(db.posts.filter (feedMatch user)).insertionSort newerFirst,
      ?_, ?_, ?_, ?_, ?_⟩
    · unfold feedPostsV2
      rw [hu]
      rfl
    · exact (List.perm_insertionSort newerFirst _).length_eq
    · exact List.sorted_insertionSort newerFirst _
    · intro p hp
      have h2 : p ∈ db.posts.filter (feedMatch user) :=
        (List.perm_insertionSort newerFirst _).mem_iff.mp hp
      exact (List.mem_filter.mp h2).2
    · intro p hp hm
      exact (List.perm_insertionSort newerFirst _).mem_iff.mpr
        (List.mem_filter.mpr ⟨hp, hm⟩)
  refine ⟨((db.posts.filter (feedMatch user)).insertionSort newerFirst).take 20,
    ?_, ?_, ?_, ?_, ?_, ?_, ?_⟩
  · unfold feedPosts
    rw [hu]
    rfl
  · unfold feed feedPosts
    rw [hu]
    rfl
  · rw [List.length_take]
    exact min_le_left _ _
  · exact List.Pairwise.sublist (List.take_sublist _ _)
      (List.sorted_insertionSort newerFirst _)
  · intro p hp
    have h1 : p ∈ (db.posts.filter (feedMatch user)).insertionSort newerFirst :=
      List.mem_of_mem_take hp
    have h2 : p ∈ db.posts.filter (feedMatch user) :=
      (List.perm_insertionSort newerFirst _).mem_iff.mp h1
    exact (List.mem_filter.mp h2).2
  · intro p hp hvis
    have h1 : p ∈ (db.posts.filter (feedMatch user)).insertionSort newerFirst :=
      List.mem_of_mem_take hp
    have h2 : p ∈ db.posts.filter (feedMatch user) :=
      (List.perm_insertionSort newerFirst _).mem_iff.mp h1
    have h3 := (List.mem_filter.mp h2).2
    simp only [feedMatch, Bool.or_eq_true, Bool.and_eq_true, beq_iff_eq] at h3
    rcases h3 with ⟨_, h⟩ | h
    · exact absurd h hvis
    · exact (findUser_id hu) ▸ h
  · intro hlen p hp hm
    have hlen2 : ((db.posts.filter (feedMatch user)).insertionSort
        newerFirst).length ≤ 20 := by
      rw [(List.perm_insertionSort newerFirst _).length_eq]
      exact hlen
    rw [List.take_of_length_le hlen2]
    exact (List.perm_insertionSort newerFirst _).mem_iff.mpr
      (List.mem_filter.mpr ⟨hp, hm⟩)

/-- Witness for the amended C7 at the 21-post store. -/
theorem feed_spec_witness :
    (∃ L, feedPosts exDBfeed 1 = some L ∧
      feed exDBfeed 1 = some (L.map (toOut exDBfeed)) ∧
      L.length ≤ 20 ∧
      List.Sorted newerFirst L ∧
      (∀ p ∈ L, feedMatch (mkUser 1 "alice") p) ∧
      (∀ p ∈ L, p.visibility ≠ "public" → p.userId = 1) ∧
      ((exDBfeed.posts.filter (feedMatch (mkUser 1 "alice"))).length ≤ 20 →
        ∀ p ∈ exDBfeed.posts, feedMatch (mkUser 1 "alice") p → p ∈ L)) ∧
    (∃ L2, feedPostsV2 exDBfeed 1 = some L2 ∧
      L2.length = (exDBfeed.posts.filter (feedMatch (mkUser 1 "alice"))).length ∧
      List.Sorted newerFirst L2 ∧
      (∀ p ∈ L2, feedMatch (mkUser 1 "alice") p) ∧
      (∀ p ∈ exDBfeed.posts, feedMatch (mkUser 1 "alice") p → p ∈ L2)) :=
  feed_spec exDBfeed 1 (mkUser 1 "alice") (by decide)

/-- C8: in every modelled notification-emitting path - follow, like and
comment of src/server.js, and follow, comment and like of the part_002
revision - any live emit in the effect trace is preceded by the
persisting of the notification it delivers, which survives in the store;
and the status, store and body of the response are independent of which
users have live sessions, so a failed or absent live delivery is never
surfaced to the caller.  In the part_002 paths the notification save
throws before any emit is reached, so those traces contain no live emit
at all: no delivery is ever attempted without the record persisted
first. -/
theorem notification_durability (db : DB) (a b pid now : Nat) (c : String)
    (s sp : List Nat) :
    (emitAfterPersist (follow db a b now s) ∧
      respAgrees (follow db a b now s) (follow db a b now sp)) ∧
    (emitAfterPersist (like db a pid now s) ∧
      respAgrees (like db a pid now s) (like db a pid now sp)) ∧
    (emitAfterPersist (comment db a pid c now s) ∧
      respAgrees (comment db a pid c now s) (comment db a pid c now sp)) ∧
    (emitAfterPersist (followV2 db a b now s) ∧
      respAgrees (followV2 db a b now s) (followV2 db a b now sp)) ∧
    (emitAfterPersist (commentV2 db a pid c now s) ∧
      respAgrees (commentV2 db a pid c now s) (commentV2 db a pid c now sp)) ∧
    (emitAfterPersist (likeV2 db a pid now s) ∧
      respAgrees (likeV2 db a pid now s) (likeV2 db a pid now sp)) := by
  refine ⟨⟨?_, ?_⟩, ⟨?_, ?_⟩, ⟨?_, ?_⟩, ⟨?_, ?_⟩, ⟨?_, ?_⟩, ⟨?_, ?_⟩⟩
  · -- follow, durability
    unfold emitAfterPersist follow
    cases hu : findUser db a with
    | none => intro room d hmem; simp at hmem
    | some user =>
      cases ht : findUser db b with
      | none => intro room d hmem; simp at hmem
      | some target =>
        dsimp only
        split_ifs with h1 h2
        · intro room d hmem; simp at hmem
        · intro room d hmem; simp at hmem
        · intro room d hmem
          simp only [List.mem_cons, List.not_mem_nil, or_false] at hmem
          rcases hmem with h | h | h | h
          · exact absurd h (by simp)
          · exact absurd h (by simp)
          · exact absurd h (by simp)
          · obtain ⟨hr, hd⟩ := Effect.liveEmit.inj h
            subst hr
            subst hd
            refine ⟨_, 2, 3, by omega, rfl, rfl, ?_, rfl⟩
            exact List.mem_append.mpr (Or.inr (List.mem_singleton.mpr rfl))
  · -- follow, session independence
    unfold respAgrees follow
    cases hu : findUser db a with
    | none => exact ⟨rfl, rfl, rfl⟩
    | some user =>
      cases ht : findUser db b with
      | none => exact ⟨rfl, rfl, rfl⟩
      | some target =>
        dsimp only
        split_ifs <;> exact ⟨rfl, rfl, rfl⟩
  · -- like, durability
    unfold emitAfterPersist like
    cases hu : findUser db a with
    | none => intro room d hmem; simp at hmem
    | some user =>
      cases hp : findPost db pid with
      | none => intro room d hmem; simp at hmem
      | some post =>
        dsimp only
        split_ifs with h1 h2
        · intro room d hmem; simp at hmem
        · intro room d hmem; simp at hmem
        · intro room d hmem
          simp only [List.mem_cons, List.not_mem_nil, or_false] at hmem
          rcases hmem with h | h | h
          · exact absurd h (by simp)
          · exact absurd h (by simp)
          · obtain ⟨hr, hd⟩ := Effect.liveEmit.inj h
            subst hr
            subst hd
            refine ⟨_, 1, 2, by omega, rfl, rfl, ?_, rfl⟩
            exact List.mem_append.mpr (Or.inr (List.mem_singleton.mpr rfl))
  · -- like, session independence
    unfold respAgrees like
    cases hu : findUser db a with
    | none => exact ⟨rfl, rfl, rfl⟩
    | some user =>
      cases hp : findPost db pid with
      | none => exact ⟨rfl, rfl, rfl⟩
      | some post =>
        dsimp only
        split_ifs <;> exact ⟨rfl, rfl, rfl⟩
  · -- comment, durability
    unfold emitAfterPersist comment
    split_ifs with hcv
    · intro room d hmem; simp at hmem
    · cases hu : findUser db a with
      | none => intro room d hmem; simp at hmem
      | some user =>
        cases hp : findPost db pid with
        | none => intro room d hmem; simp at hmem
        | some post =>
          dsimp only
          split_ifs with h1
          · intro room d hmem; simp at hmem
          · intro room d hmem
            simp only [List.mem_cons, List.not_mem_nil, or_false] at hmem
            rcases hmem with h | h | h
            · exact absurd h (by simp)
            · exact absurd h (by simp)
            · obtain ⟨hr, hd⟩ := Effect.liveEmit.inj h
              subst hr
              subst hd
              refine ⟨_, 1, 2, by omega, rfl, rfl, ?_, rfl⟩
              exact List.mem_append.mpr (Or.inr (List.mem_singleton.mpr rfl))
  · -- comment, session independence
    unfold respAgrees comment
    split_ifs with hcv
    · exact ⟨rfl, rfl, rfl⟩
    · cases hu : findUser db a with
      | none => exact ⟨rfl, rfl, rfl⟩
      | some user =>
        cases hp : findPost db pid with
        | none => exact ⟨rfl, rfl, rfl⟩
        | some post =>
          dsimp only
          split_ifs <;> exact ⟨rfl, rfl, rfl⟩
  · -- followV2, durability (trace never holds an emit)
    unfold emitAfterPersist followV2
    cases ht : findUser db b with
    | none => intro room d hmem; simp at hmem
    | some target =>
      cases hu : findUser db a with
      | none => intro room d hmem; simp at hmem
      | some user =>
        dsimp only
        split_ifs with h1
        · intro room d hmem; simp at hmem
        · intro room d hmem; simp at hmem
  · -- followV2, session independence
    unfold respAgrees followV2
    cases ht : findUser db b with
    | none => exact ⟨rfl, rfl, rfl⟩
    | some target =>
      cases hu : findUser db a with
      | none => exact ⟨rfl, rfl, rfl⟩
      | some user =>
        dsimp only
        split_ifs <;> exact ⟨rfl, rfl, rfl⟩
  · -- commentV2, durability (trace never holds an emit)
    unfold emitAfterPersist commentV2
    cases hp : findPost db pid with
    | none => intro room d hmem; simp at hmem
    | some post =>
      cases hu : findUser db a with
      | none => intro room d hmem; simp at hmem
      | some user =>
        dsimp only
        split_ifs with h1 h2
        · intro room d hmem; simp at hmem
        · intro room d hmem; simp at hmem
        · intro room d hmem; simp at hmem
  · -- commentV2, session independence
    unfold respAgrees commentV2
    cases hp : findPost db pid with
    | none => exact ⟨rfl, rfl, rfl⟩
    | some post =>
      cases hu : findUser db a with
      | none => exact ⟨rfl, rfl, rfl⟩
      | some user =>
        dsimp only
        split_ifs <;> exact ⟨rfl, rfl, rfl⟩
  · -- likeV2, durability (trace never holds an emit)
    unfold emitAfterPersist likeV2
    cases hp : findPost db pid with
    | none => intro room d hmem; simp at hmem
    | some post =>
      dsimp only
      split_ifs with h1 h2
      · intro room d hmem; simp at hmem
      · intro room d hmem; simp at hmem
      · intro room d hmem; simp at hmem
  · -- likeV2, session independence
    unfold respAgrees likeV2
    cases hp : findPost db pid with
    | none => exact ⟨rfl, rfl, rfl⟩
    | some post =>
      dsimp only
      split_ifs <;> exact ⟨rfl, rfl, rfl⟩

/-- Witness for C8: when user 1 follows user 2 with user 2 connected, the
notification record sits in the trace before the live emit and is in the
store. -/
theorem notification_durability_witness :
    ∃ n i j, i < j ∧
      (follow exDB 1 2 5 [2]).trace.get? i = some (Effect.savedNotification n) ∧
      (follow exDB 1 2 5 [2]).trace.get? j = some (Effect.liveEmit 2 true) ∧
      n ∈ (follow exDB 1 2 5 [2]).db.notifications ∧ n.userId = 2 :=
  (notification_durability exDB 1 2 10 5 "c" [2] []).1.1 2 true (by decide)

/-- C9 counterexample: a patch that supplies the empty string as content
is accepted (200) but does not overwrite the stored content - the falsy
check `content or existing` keeps the old value - refuting the claim that
every supplied field overwrites the stored value. -/
theorem updatePost_empty_patch_counterexample :
    (updatePost exDB 1 10 (some "") none []).status = 200 ∧
    findPost (updatePost exDB 1 10 (some "") none []).db 10 =
      some { id := 10, content := "hello", userId := 1, username := "alice"
             photos := ["p1"], likes := [], comments := []
             visibility := "public", createdAt := 3 } ∧
    ("hello" : String) ≠ "" := by
  refine ⟨by decide, by decide, by decide⟩

/-- C9 amended: a successful author update patches exactly as the code
does - a supplied non-empty content or visibility overwrites, an empty or
missing one keeps the stored value, photos are overwritten only when at
least one file is uploaded - and every other field (likes, comments,
author reference, denormalized username, creation timestamp, id) is
unchanged.  `hnn` excludes stored null likes, which the pre-save hook
would strip on this path. -/
theorem updatePost_patch_semantics (db : DB) (a pid : Nat)
    (cp vp : Option String) (files : List String) (post : PostR)
    (hp : findPost db pid = some post) (hown : post.userId = a)
    (hv : visValid (patchVis post.visibility vp))
    (hnn : none ∉ post.likes) :
    (updatePost db a pid cp vp files).status = 200 ∧
    findPost (updatePost db a pid cp vp files).db pid = some
      { post with content := patchContent post.content cp
                  visibility := patchVis post.visibility vp
                  photos := if files.isEmpty then post.photos else files } := by
  have hfil : post.likes.filter (fun l => l.isSome) = post.likes := by
    refine List.filter_eq_self.mpr (fun x hx => ?_)
    cases x with
    | none => exact absurd hx hnn
    | some v => rfl
  unfold updatePost
  rw [hp]
  dsimp only
  rw [if_neg (by simp [hown]), if_pos hv]
  refine ⟨rfl, ?_⟩
  rw [findPost_savePost_self hp
    { post with content := patchContent post.content cp
                visibility := patchVis post.visibility vp
                photos := if files.isEmpty then post.photos else files } rfl]
  simp [presave, hfil]

/-- Witness for the amended C9 on the concrete store: patching content,
visibility and photos together. -/
theorem updatePost_patch_semantics_witness :
    (updatePost exDB 1 10 (some "bye") (some "private") ["q1"]).status = 200 ∧
    findPost (updatePost exDB 1 10 (some "bye") (some "private") ["q1"]).db 10 =
      some { id := 10, content := patchContent "hello" (some "bye")
             userId := 1, username := "alice"
             photos := if (["q1"] : List String).isEmpty then ["p1"] else ["q1"]
             likes := [], comments := []
             visibility := patchVis "public" (some "private"), createdAt := 3 } :=
  updatePost_patch_semantics exDB 1 10 (some "bye") (some "private") ["q1"]
    { id := 10, content := "hello", userId := 1, username := "alice"
      photos := ["p1"], likes := [], comments := [], visibility := "public"
      createdAt := 3 }
    (by decide) (by decide) (by decide) (by decide)

/-- Scrubbing passwords commutes with user lookup. -/
theorem findUser_scrubDB (db : DB) (p : String) (uid : Nat) :
    findUser (scrubDB p db) uid = (findUser db uid).map (scrubUser p) :=
  find?_map_id_preserving db.users (scrubUser p) (fun _ => rfl) uid

/-- The post response projection is blind to stored passwords. -/
theorem toOut_scrubDB (db : DB) (p : String) (q : PostR) :
    toOut (scrubDB p db) q = toOut db q := by
  unfold toOut
  rw [findUser_scrubDB]
  cases findUser db q.userId <;> rfl

/-- C10: no successful response body depends on (or can contain) the
stored credential hash - overwriting every password in the store leaves
the register, login, main, user-listing, both profile projections, the
populated post projection and the whole feed response unchanged. -/
theorem password_never_in_responses (u cu : UserR) (p : String) (db : DB)
    (uid : Nat) :
    mainBody (scrubUser p u) = mainBody u ∧
    registerBody (scrubUser p u) = registerBody u ∧
    loginBody (scrubUser p u) = loginBody u ∧
    usersEntry (scrubUser p cu) (scrubUser p u) = usersEntry cu u ∧
    userProfileBody (scrubUser p cu) (scrubUser p u) = userProfileBody cu u ∧
    profileV2Body (scrubUser p u) = profileV2Body u ∧
    userProfileV2Body (scrubUser p cu) (scrubUser p u) = userProfileV2Body cu u ∧
    (∀ q : PostR, toOut (scrubDB p db) q = toOut db q) ∧
    feed (scrubDB p db) uid = feed db uid := by
  refine ⟨rfl, rfl, rfl, rfl, rfl, rfl, rfl, toOut_scrubDB db p, ?_⟩
  unfold feed feedPosts
  rw [findUser_scrubDB]
  cases hu : findUser db uid with
  | none => rfl
  | some user =>
    have hm : feedMatch (scrubUser p user) = feedMatch user :=
      funext (fun _ => rfl)
    have ho : toOut (scrubDB p db) = toOut db :=
      funext (toOut_scrubDB db p)
    show some _ = some _
    dsimp only
    rw [show (scrubDB p db).posts = db.posts from rfl, hm, ho]
